import Mathlib

/-!
Verification of the diagram mutation engine of the drawio-mcp repository.

The definitions below are a shallow embedding of `src/Graph.ts` (style codec,
kind catalog, node/edge operations, layout runner) together with the parts of
the in-memory cell store that the operations use.  JavaScript values that the
code branches on by truthiness are modelled explicitly (`JVal`), style values
may be either a delimited string or a key/value object (`StyleVal`), and the
cell store is an insertion-ordered list of cells looked up by identifier.
-/

/-- A JavaScript style-attribute value as it occurs in the code: a string, a
number, or `undefined`.  Truthiness and `String(v)` conversion follow the
JavaScript rules for these cases. -/
inductive JVal where
  | str (s : String)
  | num (n : Int)
  | undef
deriving DecidableEq, Repr

/-- JavaScript truthiness of a `JVal` (`""` and `0` and `undefined` are falsy). -/
def jvalTruthy : JVal → Bool
  | .str s => s ≠ ""
  | .num n => n ≠ 0
  | .undef => false

/-- JavaScript `String(v)` / template interpolation of a `JVal`. -/
def jvalToString : JVal → String
  | .str s => s
  | .num n => toString n
  | .undef => "undefined"

/-- The result of `parseInt(String(v), 10)` on a `corner_radius` argument:
either an integer, or `NaN` (for `NaN` itself and any non-numeric input). -/
inductive JSNum where
  | int (n : Int)
  | nan
deriving DecidableEq, Repr

/-- `parseInt(String(v), 10)` together with the `isNaN` test: `some n` when the
value parses to the integer `n`, `none` when the result is `NaN`. -/
def jsParseInt : JSNum → Option Int
  | .int n => some n
  | .nan => none

/-- A style as passed around in `Graph.ts`: either a semicolon-delimited string
or a plain key/value object. -/
inductive StyleVal where
  | str (s : String)
  | obj (m : List (String × JVal))
deriving DecidableEq, Repr

/-- JavaScript object assignment `m[k] = v`: updates an existing key in place
(keeping its position) or appends a new key at the end. -/
def objSet {α : Type} (m : List (String × α)) (k : String) (v : α) : List (String × α) :=
  if m.any (fun p => p.1 == k) then m.map (fun p => if p.1 == k then (k, v) else p)
  else m ++ [(k, v)]

/-- JavaScript `delete m[k]`. -/
def objDelete {α : Type} (m : List (String × α)) (k : String) : List (String × α) :=
  m.filter (fun p => p.1 != k)

/-- Lookup of a key in a JavaScript object. -/
def objGet {α : Type} (m : List (String × α)) (k : String) : Option α :=
  (m.find? (fun p => p.1 == k)).map (fun p => p.2)

/-- JavaScript `s.split(sep)` on the character list of a string (single
character separator, as used with `';'` and `'='` in `Graph.ts`). -/
def splitChars (sep : Char) : List Char → List (List Char)
  | [] => [[]]
  | c :: cs =>
    match splitChars sep cs with
    | [] => if c = sep then [[], []] else [[c]]
    | h :: t => if c = sep then [] :: h :: t else (c :: h) :: t

/-- JavaScript `s.split(sep)` for a single-character separator. -/
def jsSplit (s : String) (sep : Char) : List String :=
  (splitChars sep s.data).map (fun l => String.mk l)

/-- The string branch of `Graph.parseStyle`: split on `;`, drop empty
segments (`filter(Boolean)`), split each segment on `=` taking the first two
components, an absent value becoming `""`; assignments go through JavaScript
object-update semantics. -/
def parseStyleStr (s : String) : List (String × String) :=
  ((jsSplit s ';').filter (fun seg => seg ≠ "")).foldl
    (fun acc kv =>
      match jsSplit kv '=' with
      | [] => acc
      | [k] => objSet acc k ""
      | k :: v :: _ => objSet acc k v) []

/-- `Graph.parseStyle`: a string is parsed into key/value pairs, an object is
shallow-copied, `undefined` yields the empty object. -/
def parseStyle (style : Option StyleVal) : List (String × JVal) :=
  match style with
  | some (.str s) => (parseStyleStr s).map (fun p => (p.1, JVal.str p.2))
  | some (.obj m) => m
  | none => []

/-- `Graph.stringifyStyle`: keys with `undefined` values are skipped, truthy
values render as `key=value;`, falsy ones as the bare `key;`. -/
def stringifyStyle (m : List (String × JVal)) : String :=
  m.foldl (fun tmp kv =>
    if kv.2 = JVal.undef then tmp
    else tmp ++ kv.1 ++ (if jvalTruthy kv.2 then "=" ++ jvalToString kv.2 else "") ++ ";") ""

/-- `Graph.toStyleString`: a string is returned unchanged, an object is
serialized exactly like `stringifyStyle`. -/
def toStyleString : StyleVal → String
  | .str s => s
  | .obj m => stringifyStyle m

/-- `DEFAULT_CORNER_RADIUS` from `Graph.ts`. -/
def DEFAULT_CORNER_RADIUS : Int := 12

/-- `KIND_ROUNDED_RECTANGLE` from `Graph.ts`. -/
def KIND_ROUNDED_RECTANGLE : String := "RoundedRectangle"

/-- `Graph.normalizeKind`: corrects the one legacy misspelling. -/
def normalizeKind (kind : String) : String :=
  if kind = "Elipse" then "Ellipse" else kind

/-- One entry of the `Graph.Kinds` catalog. -/
structure KindSpec where
  style : StyleVal
  width : Int
  height : Int
deriving DecidableEq, Repr

/-- The `Graph.Kinds` catalog; `none` models the `undefined` result of looking
up an unknown kind.  `Rectangle` and `Ellipse` carry object styles, the rest
carry style strings, exactly as in the source. -/
def Kinds (kind : String) : Option KindSpec :=
  if kind = "Rectangle" then
    some ⟨.obj [("rounded", .num 1), ("whiteSpace", .str "wrap"), ("html", .num 1)], 120, 60⟩
  else if kind = "Ellipse" then
    some ⟨.obj [("ellipse", .str ""), ("whiteSpace", .str "wrap"), ("html", .num 1)], 120, 80⟩
  else if kind = "Cylinder" then
    some ⟨.str "shape=cylinder3;whiteSpace=wrap;html=1;boundedLbl=1;backgroundOutline=1;size=15;", 60, 80⟩
  else if kind = "Cloud" then
    some ⟨.str "ellipse;shape=cloud;whiteSpace=wrap;html=1;", 120, 80⟩
  else if kind = "Square" then
    some ⟨.str "whiteSpace=wrap;html=1;aspect=fixed;rounded=1;", 80, 80⟩
  else if kind = "Circle" then
    some ⟨.str "ellipse;whiteSpace=wrap;html=1;aspect=fixed;", 80, 80⟩
  else if kind = "Step" then
    some ⟨.str "shape=step;perimeter=stepPerimeter;whiteSpace=wrap;html=1;fixedSize=1;", 120, 80⟩
  else if kind = "Actor" then
    some ⟨.str "shape=umlActor;verticalLabelPosition=bottom;verticalAlign=top;html=1;outlineConnect=0;", 30, 60⟩
  else if kind = "Text" then
    some ⟨.str "text;html=1;strokeColor=none;fillColor=none;align=center;verticalAlign=middle;whiteSpace=wrap;rounded=0;", 60, 30⟩
  else if kind = "RoundedRectangle" then
    some ⟨.str "whiteSpace=wrap;html=1;rounded=1;absoluteArcSize=1;arcSize=24", 120, 60⟩
  else none

/-- `Graph.adjustStyleByKind`: for `RoundedRectangle`, parses the style, and
when a corner radius was supplied sets `absoluteArcSize` to `"1"` and
`arcSize` to twice the parsed radius when that is an integer at least 1,
otherwise to the doubled default radius; the object is then re-serialized.
Other kinds pass through unchanged. -/
def adjustStyleByKind (style : Option StyleVal) (kind : String) (corner_radius : Option JSNum) :
    Option StyleVal :=
  if kind = KIND_ROUNDED_RECTANGLE then
    let styleObj := parseStyle style
    let styleObj :=
      match corner_radius with
      | none => styleObj
      | some j =>
        let s1 := objSet styleObj "absoluteArcSize" (.str "1")
        let arcSize : Int :=
          match jsParseInt j with
          | some cr => if 1 ≤ cr then cr * 2 else DEFAULT_CORNER_RADIUS * 2
          | none => DEFAULT_CORNER_RADIUS * 2
        objSet s1 "arcSize" (.str (toString arcSize))
    some (.str (stringifyStyle styleObj))
  else style

/-- The `StyleOverrides` record of `Graph.ts` (the eight recognized override
keys, each optional). -/
structure StyleOverrides where
  fillColor : Option String := none
  strokeColor : Option String := none
  fontColor : Option String := none
  strokeWidth : Option Int := none
  fontSize : Option Int := none
  fontStyle : Option Int := none
  fontFamily : Option String := none
  opacity : Option Int := none
deriving DecidableEq, Repr

/-- The defined entries of a `StyleOverrides` record in `STYLE_OVERRIDE_KEYS`
order, with values passed through `String(value)`. -/
def definedOverrides (ov : StyleOverrides) : List (String × String) :=
  (match ov.fillColor with | some v => [("fillColor", v)] | none => []) ++
  (match ov.strokeColor with | some v => [("strokeColor", v)] | none => []) ++
  (match ov.fontColor with | some v => [("fontColor", v)] | none => []) ++
  (match ov.strokeWidth with | some v => [("strokeWidth", toString v)] | none => []) ++
  (match ov.fontSize with | some v => [("fontSize", toString v)] | none => []) ++
  (match ov.fontStyle with | some v => [("fontStyle", toString v)] | none => []) ++
  (match ov.fontFamily with | some v => [("fontFamily", v)] | none => []) ++
  (match ov.opacity with | some v => [("opacity", toString v)] | none => [])

/-- `Graph.mergeStyleOverrides`: with no defined overrides the style is
returned untouched; otherwise it is parsed, the defined overrides are written
over it, and the result re-serialized. -/
def mergeStyleOverrides (styleStr : Option StyleVal) (overrides : StyleOverrides) :
    Option StyleVal :=
  let defined := definedOverrides overrides
  if defined = [] then styleStr
  else some (.str (stringifyStyle
    (defined.foldl (fun acc kv => objSet acc kv.1 (.str kv.2)) (parseStyle styleStr))))

/-- A cell of the in-memory model: both vertices and edges live in the same
identifier-indexed store, as in the underlying graph model.  `value` is the
display label (`none` models a `null`/absent label), terminals are node
identifiers for edges, and `points` are the routing waypoints. -/
structure Cell where
  id : String
  value : Option String
  style : Option StyleVal
  vertex : Bool
  edge : Bool
  source : Option String
  target : Option String
  x : Int
  y : Int
  width : Int
  height : Int
  points : List (Int × Int)
  parent : Option String
deriving DecidableEq, Repr

/-- The in-memory model: the cells in insertion order. -/
abbrev Model := List Cell

/-- Modelled from the spec: the store's lookup operation
(`this.model.getCell(id)`) lives in the vendored graph library, not under
`src/`; per the spec it is the identifier lookup of the node/edge store,
returning the cell with the given id or nothing. -/
def getCell (g : Model) (id : String) : Option Cell :=
  g.find? (fun c => c.id == id)

/-- In-place mutation of the cell with the given identifier (the store keeps
the cell's position; setters such as `setValue`/`setStyle`/`setGeometry`
replace fields of the same cell object). -/
def updCell (g : Model) (id : String) (f : Cell → Cell) : Model :=
  g.map (fun c => if c.id == id then f c else c)

/-- JavaScript truthiness of an optional string (`undefined`, `null` and `""`
are falsy). -/
def truthyOpt : Option String → Bool
  | some s => s ≠ ""
  | none => false

/-- Parameters of `Graph.addNode` after destructuring: `restStyle`,
`restWidth` and `restHeight` model `style`/`width`/`height` keys a caller may
pass in `rest` (they take precedence in `{ ...Graph.Kinds[kind], ...rest }`),
and `overrides` models the eight style-override keys picked from `rest`. -/
structure AddNodeParams where
  id : String
  title : Option String := none
  parent : String := "root"
  kind : String := "Rectangle"
  x : Int := 10
  y : Int := 10
  corner_radius : Option JSNum := none
  restStyle : Option StyleVal := none
  restWidth : Option Int := none
  restHeight : Option Int := none
  overrides : StyleOverrides := {}

/-- `Graph.addNode`: resolves the kind's base style and default size (caller
values from `rest` taking precedence), inserts a vertex at the requested
position, then sets its style to the kind-adjusted, override-merged style and
returns the node.  A missing width/height defaults to 0 in the underlying
geometry. -/
def addNode (g : Model) (p : AddNodeParams) : Model × Cell :=
  let normalizedKind := normalizeKind p.kind
  let spec := Kinds normalizedKind
  let style : Option StyleVal := p.restStyle.orElse (fun _ => spec.map (fun s => s.style))
  let width : Int := (p.restWidth.orElse (fun _ => spec.map (fun s => s.width))).getD 0
  let height : Int := (p.restHeight.orElse (fun _ => spec.map (fun s => s.height))).getD 0
  let parentRef : Option String := if p.parent = "root" then none else some p.parent
  let adjustedStyle := adjustStyleByKind style normalizedKind p.corner_radius
  let finalStyle := mergeStyleOverrides adjustedStyle p.overrides
  let node : Cell :=
    { id := p.id, value := p.title, style := finalStyle, vertex := true, edge := false,
      source := none, target := none, x := p.x, y := p.y, width := width, height := height,
      points := [], parent := parentRef }
  (g ++ [node], node)

/-- Parameters of `Graph.editNode` after destructuring. -/
structure EditNodeParams where
  id : String
  title : Option String := none
  kind : Option String := none
  x : Option Int := none
  y : Option Int := none
  width : Option Int := none
  height : Option Int := none
  corner_radius : Option JSNum := none
  overrides : StyleOverrides := {}

/-- `node.getStyle && node.getStyle() ? String(node.getStyle()) : ''`: the
current style as a string, with a missing or empty style yielding `""` and an
object style yielding its JavaScript string conversion. -/
def jsStyleCurrent (c : Cell) : String :=
  match c.style with
  | none => ""
  | some (.str s) => s
  | some (.obj _) => "[object Object]"

/-- `Graph.editNode`: fails when the id is unknown; applies the title if
truthy; resets the style to the kind's template if a kind is given (an
unknown kind faults on the catalog lookup); re-applies the corner radius for
`RoundedRectangle`; merges any style overrides over the current style string;
and merges geometry fields individually, each defaulting to its current
value. -/
def editNode (g : Model) (p : EditNodeParams) : Except String Model :=
  match getCell g p.id with
  | none => .error "Node not found"
  | some node0 =>
    let normalizedKind := p.kind.map normalizeKind
    let node1 := if truthyOpt p.title then { node0 with value := p.title } else node0
    let afterKind : Except String Cell :=
      if truthyOpt p.kind then
        match Kinds (normalizeKind (p.kind.getD "")) with
        | some spec => .ok { node1 with style := some spec.style }
        | none => .error "TypeError: cannot read style of undefined kind"
      else .ok node1
    match afterKind with
    | .error e => .error e
    | .ok node2 =>
      let isRounded := normalizedKind = some KIND_ROUNDED_RECTANGLE
      let node3 :=
        if isRounded ∧ p.corner_radius.isSome then
          let st := adjustStyleByKind (some (.str (jsStyleCurrent node2)))
            KIND_ROUNDED_RECTANGLE p.corner_radius
          { node2 with style := st }
        else node2
      let node4 :=
        if definedOverrides p.overrides ≠ [] then
          let st := mergeStyleOverrides (some (.str (jsStyleCurrent node3))) p.overrides
          { node3 with style := st }
        else node3
      let node5 :=
        if p.x.isSome ∨ p.y.isSome ∨ p.width.isSome ∨ p.height.isSome then
          { node4 with x := p.x.getD node4.x, y := p.y.getD node4.y,
                       width := p.width.getD node4.width, height := p.height.getD node4.height }
        else node4
      .ok (updCell g p.id (fun _ => node5))

/-- The named edge routing styles (`EDGE_STYLES` keys in `Graph.ts`). -/
inductive EdgeStyleName where
  | orthogonal
  | elbow
  | entityRelation
  | segment
  | straight
deriving DecidableEq, Repr

/-- The `EDGE_STYLES` mapping from routing-style name to mxGraph token. -/
def EDGE_STYLES : EdgeStyleName → String
  | .orthogonal => "orthogonalEdgeStyle"
  | .elbow => "elbowEdgeStyle"
  | .entityRelation => "entityRelationEdgeStyle"
  | .segment => "segmentEdgeStyle"
  | .straight => "none"

/-- `computeEffectiveLineStyle`: starts from the base edge style, applies a
requested routing style (the `"none"` token re-disabling routing, any other
token removing `noEdgeStyle`), layers the caller style on top, and for an
undirected edge clears `reverse` (to `undefined`) and forces both arrowheads
to `"none"`. -/
def computeEffectiveLineStyle (style : List (String × JVal)) (undirected : Bool)
    (edgeStyle : Option EdgeStyleName) : List (String × JVal) :=
  let base : List (String × JVal) :=
    [("edgeStyle", .str "none"), ("noEdgeStyle", .num 1), ("orthogonal", .num 1),
     ("html", .num 1)]
  let base :=
    match edgeStyle with
    | none => base
    | some es =>
      let mxEdgeStyle := EDGE_STYLES es
      if mxEdgeStyle = "none" then
        objSet (objSet base "edgeStyle" (.str "none")) "noEdgeStyle" (.num 1)
      else
        objDelete (objSet base "edgeStyle" (.str mxEdgeStyle)) "noEdgeStyle"
  let effective := style.foldl (fun acc kv => objSet acc kv.1 kv.2) base
  if undirected then
    objSet (objSet (objSet effective "reverse" .undef) "startArrow" (.str "none"))
      "endArrow" (.str "none")
  else effective

/-- Parameters of `Graph.linkNodes` (`from`/`to` are renamed to
`fromId`/`toId` because `from` is a reserved word here). -/
structure LinkNodesParams where
  fromId : String
  toId : String
  title : Option String := none
  style : List (String × JVal) := []
  undirected : Bool := false
  waypoints : List (Int × Int) := []
  edgeStyle : Option EdgeStyleName := none

/-- The direct edge identifier `a-2-b`. -/
def idDirectOf (a b : String) : String :=
  a ++ "-2-" ++ b

/-- JavaScript string comparison (`a <= b` as the default array sort uses):
lexicographic over the code units.  Agrees with the lexicographic order on
the character lists (`charListLe_iff` below). -/
def charListLe (a b : List Char) : Bool :=
  match a, b with
  | [], _ => true
  | _ :: _, [] => false
  | c :: cs, d :: ds => if c < d then true else if d < c then false else charListLe cs ds

/-- The canonical edge identifier: the two endpoint ids sorted
lexicographically (JavaScript default array sort) joined by the separator. -/
def idCanonicalOf (a b : String) : String :=
  if charListLe a.data b.data then a ++ "-2-" ++ b else b ++ "-2-" ++ a

/-- The in-place mutation `linkNodes` applies to an existing edge: set the
title when one was supplied, set the computed effective style, and replace
the waypoints when a non-empty list was supplied. -/
def linkUpdateF (p : LinkNodesParams) (c : Cell) : Cell :=
  let effective := computeEffectiveLineStyle p.style p.undirected p.edgeStyle
  let c1 := if p.title.isSome then { c with value := p.title } else c
  let c2 := { c1 with style := some (.str (toStyleString (.obj effective))) }
  if p.waypoints ≠ [] then { c2 with points := p.waypoints } else c2

/-- The edge cell `linkNodes` inserts when no candidate edge exists: canonical
id when undirected (direct id otherwise), `title ? title : null` label, the
computed effective style, the given terminals and waypoints. -/
def newEdgeCell (p : LinkNodesParams) : Cell :=
  { id := if p.undirected then idCanonicalOf p.fromId p.toId else idDirectOf p.fromId p.toId,
    value := if truthyOpt p.title then p.title else none,
    style := some (.str (toStyleString
      (.obj (computeEffectiveLineStyle p.style p.undirected p.edgeStyle)))),
    vertex := false, edge := true,
    source := some p.fromId, target := some p.toId, x := 0, y := 0, width := 0,
    height := 0, points := p.waypoints, parent := none }

/-- `Graph.linkNodes`: computes the direct, reverse and canonical candidate
identifiers (the canonical one sorting the endpoints lexicographically),
looks them up in that order, and either mutates the found edge in place
(title when supplied, then style, then waypoints when non-empty) or inserts a
new edge under the canonical id when undirected and the direct id otherwise.
Modelled from the spec: the store's `insertEdge` lives in the vendored graph
library, not under `src/`; per the spec's invariant, source and target must
reference existing nodes at creation time, so inserting with a missing
terminal is the reference error reported for link operations.  The returned
string is `link.getId()`. -/
def linkNodes (g : Model) (p : LinkNodesParams) : Except String (Model × String) :=
  let fromNode := getCell g p.fromId
  let toNode := getCell g p.toId
  let idDirect := idDirectOf p.fromId p.toId
  let idReverse := idDirectOf p.toId p.fromId
  let idCanonical := idCanonicalOf p.fromId p.toId
  let existing := ((getCell g idDirect).orElse (fun _ => getCell g idReverse)).orElse
    (fun _ => getCell g idCanonical)
  match existing with
  | some link0 => .ok (updCell g link0.id (linkUpdateF p), link0.id)
  | none =>
    let idToUse := if p.undirected then idCanonical else idDirect
    match fromNode, toNode with
    | some _, some _ => .ok (g ++ [newEdgeCell p], idToUse)
    | _, _ => .error "referenced node id not found"

/-- `Graph.removeNodes`.  Modelled from the spec: the cascade behavior lives
in the vendored graph library's `removeCells`, not under `src/`; per the
spec, each named cell is removed, and removing a node also removes every edge
whose source or target is that node, while an id naming an edge removes only
that edge. -/
def removeNodes (g : Model) (ids : List String) : Model :=
  let targets := ids.filterMap (fun id => getCell g id)
  g.filter (fun c =>
    !(targets.any (fun t => t.id == c.id) ||
      (c.edge && targets.any (fun t =>
        t.vertex && (c.source == some t.id || c.target == some t.id)))))

/-- The layout-invocation outcome: which layout algorithm runs, and for the
hierarchical one the mxGraph direction constant it is constructed with (the
layout algorithms themselves are external black boxes). -/
inductive LayoutRun where
  | hierarchical (mxDirection : Option String)
  | circle
  | organic
  | compactTree
  | radialTree
  | partitioned
  | stacked
deriving DecidableEq, Repr

/-- The `supportedAlgorithms` list from `Graph.applyLayout`. -/
def supportedAlgorithms : List String :=
  ["hierarchical", "circle", "organic", "compact-tree", "radial-tree", "partition", "stack"]

/-- `DIR_TO_MX_DIRECTION`: maps the two allowed direction names to the
mxGraph direction constants, anything else (including absence) to
`undefined`. -/
def dirToMxDirection : Option String → Option String
  | some "top-down" => some "north"
  | some "left-right" => some "west"
  | _ => none

/-- `Graph.applyLayout`: the hierarchical case validates `direction` (absent,
`top-down` or `left-right`) and reports the allowed values otherwise; every
other supported algorithm runs regardless of options; an unsupported name
reports the seven supported algorithms. -/
def applyLayout (algorithm : String) (direction : Option String) : Except String LayoutRun :=
  if algorithm = "hierarchical" then
    if direction ≠ none ∧ direction ≠ some "top-down" ∧ direction ≠ some "left-right" then
      .error ("Invalid hierarchical direction: " ++ direction.getD "undefined" ++
        ". Allowed: top-down, left-right")
    else .ok (.hierarchical (dirToMxDirection direction))
  else if algorithm = "circle" then .ok .circle
  else if algorithm = "organic" then .ok .organic
  else if algorithm = "compact-tree" then .ok .compactTree
  else if algorithm = "radial-tree" then .ok .radialTree
  else if algorithm = "partition" then .ok .partitioned
  else if algorithm = "stack" then .ok .stacked
  else .error ("Unsupported layout algorithm: " ++ algorithm ++ ". Supported: " ++
    String.intercalate ", " supportedAlgorithms)

theorem splitChars_ne_nil (sep : Char) (l : List Char) : splitChars sep l ≠ [] := by
  cases l with
  | nil => simp [splitChars]
  | cons c cs =>
    rw [splitChars]
    cases h : splitChars sep cs with
    | nil => split <;> split <;> simp
    | cons hd tl => split <;> split <;> simp

theorem splitChars_sepFree (sep : Char) (l : List Char) (h : sep ∉ l) :
    splitChars sep l = [l] := by
  induction l with
  | nil => rfl
  | cons c cs ih =>
    have hc : ¬ c = sep := fun e => h (e ▸ List.mem_cons_self c cs)
    have hcs : sep ∉ cs := fun m => h (List.mem_cons_of_mem _ m)
    rw [splitChars, ih hcs]
    simp [hc]

theorem splitChars_append_sep (sep : Char) (xs ys : List Char) (h : sep ∉ xs) :
    splitChars sep (xs ++ sep :: ys) = xs :: splitChars sep ys := by
  induction xs with
  | nil =>
    rw [List.nil_append, splitChars]
    rcases hys : splitChars sep ys with _ | ⟨hd, tl⟩
    · exact absurd hys (splitChars_ne_nil sep ys)
    · simp
  | cons c cs ih =>
    have hc : ¬ c = sep := fun e => h (e ▸ List.mem_cons_self c cs)
    have hcs : sep ∉ cs := fun m => h (List.mem_cons_of_mem _ m)
    rw [List.cons_append, splitChars, ih hcs]
    simp [hc]

/-- The characters a string-valued pair contributes to `stringifyStyle`
output: `key=value;`, or `key;` for an empty value. -/
def segChars (kv : String × String) : List Char :=
  kv.1.data ++ (if kv.2 = "" then [] else '=' :: kv.2.data) ++ [';']

theorem stringifyStyle_strs_data (m : List (String × String)) :
    (stringifyStyle (m.map (fun kv => (kv.1, JVal.str kv.2)))).data =
      (m.map segChars).flatten := by
  suffices h : ∀ (acc : String),
      (List.foldl
        (fun tmp kv =>
          if kv.2 = JVal.undef then tmp
          else tmp ++ kv.1 ++ (if jvalTruthy kv.2 then "=" ++ jvalToString kv.2 else "") ++ ";")
        acc (m.map (fun kv => (kv.1, JVal.str kv.2)))).data =
      acc.data ++ (m.map segChars).flatten by
    simpa using h ""
  induction m with
  | nil => intro acc; simp
  | cons kv t ih =>
    intro acc
    rw [List.map_cons, List.foldl_cons, ih]
    simp only [List.map_cons, List.flatten_cons, if_neg (by simp : ¬ JVal.str kv.2 = JVal.undef)]
    by_cases hv : kv.2 = ""
    · simp [jvalTruthy, jvalToString, hv, segChars, String.data_append]
    · simp [jvalTruthy, jvalToString, hv, segChars, String.data_append]

theorem splitChars_flatten_bodies (bs : List (List Char)) (h : ∀ b ∈ bs, ';' ∉ b) :
    splitChars ';' (bs.map (fun b => b ++ [';'])).flatten = bs ++ [[]] := by
  induction bs with
  | nil => rfl
  | cons b t ih =>
    have hb : ';' ∉ b := h b (List.mem_cons_self b t)
    have ht : ∀ x ∈ t, ';' ∉ x := fun x hx => h x (List.mem_cons_of_mem _ hx)
    rw [List.map_cons, List.flatten_cons, List.append_assoc, List.singleton_append,
      splitChars_append_sep ';' b _ hb, ih ht]
    rfl

theorem mk_data_eq (s : String) : String.mk s.data = s := rfl

theorem mk_eq_empty_iff (l : List Char) : String.mk l = "" ↔ l = [] := by
  rw [String.ext_iff]

theorem objSet_append_of_fresh {α : Type} (m : List (String × α)) (k : String) (v : α)
    (h : ∀ p ∈ m, p.1 ≠ k) : objSet m k v = m ++ [(k, v)] := by
  rw [objSet, if_neg]
  simp only [List.any_eq_true, beq_iff_eq, not_exists, not_and]
  exact fun p hp => h p hp

/-- A key/value pair the string codec transports faithfully: nonempty key,
and no `;` or `=` in either component. -/
def goodPair (kv : String × String) : Prop :=
  kv.1 ≠ "" ∧ ';' ∉ kv.1.data ∧ '=' ∉ kv.1.data ∧ ';' ∉ kv.2.data ∧ '=' ∉ kv.2.data

instance goodPair_decidable (kv : String × String) : Decidable (goodPair kv) := by
  unfold goodPair
  infer_instance

/-- The segment body (everything before the trailing `;`). -/
def segBody (kv : String × String) : List Char :=
  kv.1.data ++ (if kv.2 = "" then [] else '=' :: kv.2.data)

theorem segChars_eq_body (kv : String × String) : segChars kv = segBody kv ++ [';'] := rfl

theorem semi_not_mem_segBody (kv : String × String) (h : goodPair kv) : ';' ∉ segBody kv := by
  obtain ⟨h1, h2, h3, h4, h5⟩ := h
  rw [segBody]
  intro hmem
  rcases List.mem_append.mp hmem with hk | hv
  · exact h2 hk
  · by_cases hv2 : kv.2 = ""
    · simp [hv2] at hv
    · rw [if_neg hv2] at hv
      rcases List.mem_cons.mp hv with he | hm
      · exact absurd he (by decide)
      · exact h4 hm

theorem segBody_ne_nil (kv : String × String) (h : goodPair kv) : segBody kv ≠ [] := by
  obtain ⟨h1, _⟩ := h
  rw [segBody]
  intro hnil
  rcases List.append_eq_nil.mp hnil with ⟨hk, _⟩
  exact h1 (by rw [String.ext_iff]; exact hk)

theorem jsSplit_segBody (kv : String × String) (h : goodPair kv) :
    jsSplit (String.mk (segBody kv)) '=' = if kv.2 = "" then [kv.1] else [kv.1, kv.2] := by
  obtain ⟨h1, h2, h3, h4, h5⟩ := h
  rw [jsSplit, show (String.mk (segBody kv)).data = segBody kv from rfl, segBody]
  by_cases hv : kv.2 = ""
  · rw [if_pos hv, List.append_nil, splitChars_sepFree _ _ h3, if_pos hv]
    simp [mk_data_eq]
  · rw [if_neg hv, splitChars_append_sep _ _ _ h3, splitChars_sepFree _ _ h5, if_neg hv]
    simp [mk_data_eq]

theorem parse_foldl_bodies (m : List (String × String)) (acc : List (String × String))
    (hg : ∀ kv ∈ m, goodPair kv)
    (hnd : (m.map Prod.fst).Nodup)
    (hdisj : ∀ kv ∈ m, ∀ p ∈ acc, p.1 ≠ kv.1) :
    (m.map (fun kv => String.mk (segBody kv))).foldl
      (fun acc kv =>
        match jsSplit kv '=' with
        | [] => acc
        | [k] => objSet acc k ""
        | k :: v :: _ => objSet acc k v) acc = acc ++ m := by
  induction m generalizing acc with
  | nil => simp
  | cons kv t ih =>
    have hkv : goodPair kv := hg kv (List.mem_cons_self kv t)
    have hgt : ∀ x ∈ t, goodPair x := fun x hx => hg x (List.mem_cons_of_mem _ hx)
    have hndt : (t.map Prod.fst).Nodup := (List.nodup_cons.mp hnd).2
    have hfresh : kv.1 ∉ t.map Prod.fst := (List.nodup_cons.mp hnd).1
    rw [List.map_cons, List.foldl_cons]
    have hstep :
        (match jsSplit (String.mk (segBody kv)) '=' with
          | [] => acc
          | [k] => objSet acc k ""
          | k :: v :: _ => objSet acc k v) = acc ++ [kv] := by
      rw [jsSplit_segBody kv hkv]
      by_cases hv : kv.2 = ""
      · rw [if_pos hv]
        show objSet acc kv.1 "" = acc ++ [kv]
        rw [objSet_append_of_fresh acc kv.1 ""
          (fun p hp => hdisj kv (List.mem_cons_self kv t) p hp), ← hv]
      · rw [if_neg hv]
        show objSet acc kv.1 kv.2 = acc ++ [kv]
        rw [objSet_append_of_fresh acc kv.1 kv.2
          (fun p hp => hdisj kv (List.mem_cons_self kv t) p hp)]
    have hdisj2 : ∀ x ∈ t, ∀ p ∈ acc ++ [kv], p.1 ≠ x.1 := by
      intro x hx p hp
      rcases List.mem_append.mp hp with ha | hb
      · exact hdisj x (List.mem_cons_of_mem _ hx) p ha
      · rw [List.mem_singleton.mp hb]
        intro heq
        exact hfresh (heq ▸ List.mem_map_of_mem Prod.fst hx)
    rw [hstep, ih (acc ++ [kv]) hgt hndt hdisj2, List.append_assoc, List.singleton_append]

theorem parseStyleStr_stringifyStyle (m : List (String × String))
    (hnd : (m.map Prod.fst).Nodup) (hg : ∀ kv ∈ m, goodPair kv) :
    parseStyleStr (stringifyStyle (m.map (fun kv => (kv.1, JVal.str kv.2)))) = m := by
  have hsplit : jsSplit (stringifyStyle (m.map (fun kv => (kv.1, JVal.str kv.2)))) ';' =
      (m.map (fun kv => String.mk (segBody kv))) ++ [""] := by
    rw [jsSplit, stringifyStyle_strs_data m]
    have hmap : m.map segChars = (m.map segBody).map (fun b => b ++ [';']) := by
      rw [List.map_map]
      rfl
    rw [hmap, splitChars_flatten_bodies (m.map segBody) (by
      intro b hb
      obtain ⟨kv, hkv, rfl⟩ := List.mem_map.mp hb
      exact semi_not_mem_segBody kv (hg kv hkv))]
    rw [List.map_append, List.map_map]
    rfl
  rw [parseStyleStr, hsplit, List.filter_append]
  have h1 : (m.map (fun kv => String.mk (segBody kv))).filter (fun seg => seg ≠ "") =
      m.map (fun kv => String.mk (segBody kv)) := by
    apply List.filter_eq_self.mpr
    intro s hs
    obtain ⟨kv, hkv, rfl⟩ := List.mem_map.mp hs
    simpa [mk_eq_empty_iff] using segBody_ne_nil kv (hg kv hkv)
  have h2 : ([""] : List String).filter (fun seg => seg ≠ "") = [] := by decide
  rw [h1, h2, List.append_nil]
  exact parse_foldl_bodies m [] hg hnd (by intro kv _ p hp; cases hp)

set_option maxHeartbeats 1000000 in
theorem digitChar_good (m : Nat) : Nat.digitChar m ≠ ';' ∧ Nat.digitChar m ≠ '=' := by
  by_cases h : m < 16
  · interval_cases m <;> decide
  · have hstar : Nat.digitChar m = '*' := by
      unfold Nat.digitChar
      repeat rw [if_neg (by omega)]
    rw [hstar]
    decide

theorem toDigitsCore_good (fuel : Nat) : ∀ (n : Nat) (acc : List Char),
    (∀ c ∈ acc, c ≠ ';' ∧ c ≠ '=') →
    ∀ c ∈ Nat.toDigitsCore 10 fuel n acc, c ≠ ';' ∧ c ≠ '=' := by
  induction fuel with
  | zero =>
    intro n acc hacc
    rw [Nat.toDigitsCore]
    exact hacc
  | succ fuel ih =>
    intro n acc hacc
    rw [Nat.toDigitsCore]
    have hcons : ∀ c ∈ Nat.digitChar (n % 10) :: acc, c ≠ ';' ∧ c ≠ '=' := by
      intro c hc
      rcases List.mem_cons.mp hc with rfl | h
      · exact digitChar_good _
      · exact hacc c h
    split
    · exact hcons
    · exact ih _ _ hcons

theorem toDigitsCore_eq_nil (fuel : Nat) : ∀ (n : Nat) (acc : List Char),
    Nat.toDigitsCore 10 fuel n acc = [] → acc = [] := by
  induction fuel with
  | zero =>
    intro n acc h
    rw [Nat.toDigitsCore] at h
    exact h
  | succ fuel ih =>
    intro n acc h
    rw [Nat.toDigitsCore] at h
    split at h
    · exact absurd h (List.cons_ne_nil _ _)
    · exact absurd (ih _ _ h) (List.cons_ne_nil _ _)

theorem toDigitsCore_succ_ne_nil (fuel n : Nat) (acc : List Char) :
    Nat.toDigitsCore 10 (fuel + 1) n acc ≠ [] := by
  rw [Nat.toDigitsCore]
  split
  · exact List.cons_ne_nil _ _
  · intro h
    exact absurd (toDigitsCore_eq_nil _ _ _ h) (List.cons_ne_nil _ _)

theorem natRepr_good (n : Nat) :
    Nat.repr n ≠ "" ∧ ';' ∉ (Nat.repr n).data ∧ '=' ∉ (Nat.repr n).data := by
  have hdata : (Nat.repr n).data = Nat.toDigitsCore 10 (n + 1) n [] := rfl
  refine ⟨?_, ?_, ?_⟩
  · intro h
    have h2 : (Nat.repr n).data = [] := by rw [h]
    rw [hdata] at h2
    exact toDigitsCore_succ_ne_nil n n [] h2
  · intro hmem
    rw [hdata] at hmem
    exact (toDigitsCore_good (n + 1) n [] (by simp) ';' hmem).1 rfl
  · intro hmem
    rw [hdata] at hmem
    exact (toDigitsCore_good (n + 1) n [] (by simp) '=' hmem).2 rfl

theorem intToString_good (r : Int) (h : 0 ≤ r) :
    toString r ≠ "" ∧ ';' ∉ (toString r).data ∧ '=' ∉ (toString r).data := by
  obtain ⟨n, rfl⟩ := Int.eq_ofNat_of_zero_le h
  have h2 : toString ((n : Int)) = Nat.repr n := rfl
  rw [h2]
  exact natRepr_good n

theorem getCell_eq_none (g : Model) (id : String) :
    getCell g id = none ↔ ∀ c ∈ g, c.id ≠ id := by
  rw [getCell, List.find?_eq_none]
  simp

theorem getCell_id (g : Model) (id : String) (c : Cell) (h : getCell g id = some c) :
    c.id = id := by
  have := List.find?_some h
  simpa using this

theorem getCell_mem (g : Model) (id : String) (c : Cell) (h : getCell g id = some c) :
    c ∈ g := List.mem_of_find?_eq_some h

theorem getCell_append (g1 g2 : Model) (id : String) :
    getCell (g1 ++ g2) id = (getCell g1 id).or (getCell g2 id) := by
  rw [getCell, getCell, getCell, List.find?_append]

theorem getCell_map_presid (g : Model) (f : Cell → Cell) (hf : ∀ c, (f c).id = c.id)
    (id : String) : getCell (g.map f) id = (getCell g id).map f := by
  induction g with
  | nil => rfl
  | cons c t ih =>
    rw [List.map_cons, getCell, List.find?_cons, getCell, List.find?_cons]
    rw [hf c]
    cases hb : (c.id == id) with
    | true => rfl
    | false => exact ih

theorem getCell_updCell (g : Model) (uid : String) (f : Cell → Cell)
    (hf : ∀ c, (f c).id = c.id) (id : String) :
    getCell (updCell g uid f) id =
      (getCell g id).map (fun c => if c.id == uid then f c else c) := by
  rw [updCell]
  exact getCell_map_presid g _ (by
    intro c
    by_cases h : c.id == uid <;> simp [h, hf]) id

/-- An edge cell connecting the two given node identifiers (in either
direction). -/
def isEdgeBetweenB (c : Cell) (a b : String) : Bool :=
  c.edge && ((c.source == some a && c.target == some b) ||
    (c.source == some b && c.target == some a))

/-- The edges of the model between two node identifiers. -/
def edgesBetween (g : Model) (a b : String) : List Cell :=
  g.filter (fun c => isEdgeBetweenB c a b)

theorem edgesBetween_append (g1 g2 : Model) (a b : String) :
    edgesBetween (g1 ++ g2) a b = edgesBetween g1 a b ++ edgesBetween g2 a b := by
  rw [edgesBetween, edgesBetween, edgesBetween, List.filter_append]

theorem edgesBetween_map (g : Model) (f : Cell → Cell) (a b : String)
    (hpres : ∀ c, isEdgeBetweenB (f c) a b = isEdgeBetweenB c a b) :
    edgesBetween (g.map f) a b = (edgesBetween g a b).map f := by
  rw [edgesBetween, edgesBetween, List.filter_map]
  congr 1
  exact List.filter_congr (fun c _ => hpres c)

theorem filter_eq_singleton_of_unique (g : Model) (p : Cell → Bool) (e : Cell)
    (hmem : e ∈ g) (hp : p e = true)
    (huniq : ∀ c ∈ g, p c = true → c = e)
    (hnd : (g.map Cell.id).Nodup) :
    g.filter p = [e] := by
  induction g with
  | nil => cases hmem
  | cons c t ih =>
    rw [List.filter_cons]
    rcases List.mem_cons.mp hmem with rfl | hmem2
    · rw [if_pos hp]
      have htnil : t.filter p = [] := by
        rw [List.filter_eq_nil_iff]
        intro x hx hpx
        have hx_eq := huniq x (List.mem_cons_of_mem _ hx) hpx
        subst hx_eq
        exact (List.nodup_cons.mp hnd).1 (List.mem_map_of_mem Cell.id hx)
      rw [htnil]
    · have hpc : ¬ p c = true := by
        intro hb
        have hce := huniq c (List.mem_cons_self c t) hb
        subst hce
        exact (List.nodup_cons.mp hnd).1 (List.mem_map_of_mem Cell.id hmem2)
      rw [if_neg hpc]
      exact ih hmem2 (fun c2 h2 hp2 => huniq c2 (List.mem_cons_of_mem _ h2) hp2)
        (List.nodup_cons.mp hnd).2

/-- Claim C7: `applyLayout` with an algorithm outside the supported set throws
an error naming all 7 supported algorithms; `hierarchical` with a direction
other than `top-down` or `left-right` throws an error naming the two allowed
directions; any other supported algorithm accepts and ignores a supplied
direction. -/
theorem c7_layout_validation :
    (∀ alg : String, alg ∉ supportedAlgorithms → ∀ dir : Option String,
      applyLayout alg dir = .error ("Unsupported layout algorithm: " ++ alg ++
        ". Supported: hierarchical, circle, organic, compact-tree, radial-tree, partition, stack")) ∧
    (∀ d : String, d ≠ "top-down" → d ≠ "left-right" →
      applyLayout "hierarchical" (some d) = .error ("Invalid hierarchical direction: " ++ d ++
        ". Allowed: top-down, left-right")) ∧
    (∀ alg ∈ supportedAlgorithms, alg ≠ "hierarchical" → ∀ d : String,
      (applyLayout alg (some d)).isOk = true ∧
      applyLayout alg (some d) = applyLayout alg none) := by
  refine ⟨?_, ?_, ?_⟩
  · intro alg halg dir
    simp only [supportedAlgorithms, List.mem_cons, List.not_mem_nil, or_false, not_or] at halg
    obtain ⟨h1, h2, h3, h4, h5, h6, h7⟩ := halg
    rw [applyLayout, if_neg h1, if_neg h2, if_neg h3, if_neg h4, if_neg h5, if_neg h6, if_neg h7]
    conv_lhs => rw [String.append_assoc]
    rfl
  · intro d hd1 hd2
    rw [applyLayout, if_pos rfl, if_pos ⟨by simp, by simp [hd1], by simp [hd2]⟩]
    rfl
  · intro alg halg hne d
    simp only [supportedAlgorithms, List.mem_cons, List.not_mem_nil, or_false] at halg
    rcases halg with rfl | rfl | rfl | rfl | rfl | rfl | rfl
    · exact absurd rfl hne
    · exact ⟨rfl, rfl⟩
    · exact ⟨rfl, rfl⟩
    · exact ⟨rfl, rfl⟩
    · exact ⟨rfl, rfl⟩
    · exact ⟨rfl, rfl⟩
    · exact ⟨rfl, rfl⟩

theorem c7_layout_validation_witness :
    applyLayout "foo" none = .error ("Unsupported layout algorithm: foo. Supported: " ++
      "hierarchical, circle, organic, compact-tree, radial-tree, partition, stack") ∧
    applyLayout "hierarchical" (some "diagonal") =
      .error "Invalid hierarchical direction: diagonal. Allowed: top-down, left-right" ∧
    (applyLayout "circle" (some "diagonal")).isOk = true ∧
    applyLayout "circle" (some "diagonal") = applyLayout "circle" none := by
  refine ⟨?_, ?_, ?_, ?_⟩
  · exact c7_layout_validation.1 "foo" (by decide) none
  · exact c7_layout_validation.2.1 "diagonal" (by decide) (by decide)
  · exact (c7_layout_validation.2.2 "circle" (by decide) (by decide) "diagonal").1
  · exact (c7_layout_validation.2.2 "circle" (by decide) (by decide) "diagonal").2

/-- Claim C8: adding a node of kind `Rectangle` at (100,150) with no
overrides produces a node whose style holds exactly the pairs that serialize
to `rounded=1;whiteSpace=wrap;html=1;`, with width 120 and height 60. -/
theorem c8_rectangle_defaults :
    (addNode [] { id := "svc", title := some "svc", x := 100, y := 150 }).2.style =
      some (.obj [("rounded", .num 1), ("whiteSpace", .str "wrap"), ("html", .num 1)]) ∧
    toStyleString (.obj [("rounded", .num 1), ("whiteSpace", .str "wrap"), ("html", .num 1)]) =
      "rounded=1;whiteSpace=wrap;html=1;" ∧
    (addNode [] { id := "svc", title := some "svc", x := 100, y := 150 }).2.width = 120 ∧
    (addNode [] { id := "svc", title := some "svc", x := 100, y := 150 }).2.height = 60 ∧
    (addNode [] { id := "svc", title := some "svc", x := 100, y := 150 }).2.x = 100 ∧
    (addNode [] { id := "svc", title := some "svc", x := 100, y := 150 }).2.y = 150 := by
  refine ⟨by decide, by decide, by decide, by decide, by decide, by decide⟩

/-- `addNode` parameters for a RoundedRectangle node with the given corner
radius (all other fields at their defaults). -/
def rrParams (id : String) (title : Option String) (x y : Int) (cr : Option JSNum) :
    AddNodeParams :=
  { id := id, title := title, kind := "RoundedRectangle", x := x, y := y, corner_radius := cr }

/-- The parsed RoundedRectangle template style. -/
def rrTemplateParsed : List (String × JVal) :=
  [("whiteSpace", .str "wrap"), ("html", .str "1"), ("rounded", .str "1"),
   ("absoluteArcSize", .str "1"), ("arcSize", .str "24")]

theorem rr_template_parse :
    parseStyle (some (.str "whiteSpace=wrap;html=1;rounded=1;absoluteArcSize=1;arcSize=24")) =
      rrTemplateParsed := by decide

theorem rr_template_absArc :
    objSet rrTemplateParsed "absoluteArcSize" (JVal.str "1") = rrTemplateParsed := by decide

theorem addNode_rr_style (g : Model) (id : String) (title : Option String) (x y : Int)
    (j : JSNum) :
    (addNode g (rrParams id title x y (some j))).2.style =
      some (.str (stringifyStyle (objSet rrTemplateParsed "arcSize"
        (.str (toString (match jsParseInt j with
          | some cr => if 1 ≤ cr then cr * 2 else DEFAULT_CORNER_RADIUS * 2
          | none => DEFAULT_CORNER_RADIUS * 2)))))) := by
  have h0 : (addNode g (rrParams id title x y (some j))).2.style =
      mergeStyleOverrides (adjustStyleByKind
        (some (.str "whiteSpace=wrap;html=1;rounded=1;absoluteArcSize=1;arcSize=24"))
        "RoundedRectangle" (some j)) {} := rfl
  have h1 : mergeStyleOverrides (adjustStyleByKind
      (some (.str "whiteSpace=wrap;html=1;rounded=1;absoluteArcSize=1;arcSize=24"))
      "RoundedRectangle" (some j)) {} =
      adjustStyleByKind
        (some (.str "whiteSpace=wrap;html=1;rounded=1;absoluteArcSize=1;arcSize=24"))
        "RoundedRectangle" (some j) := rfl
  rw [h0, h1, adjustStyleByKind,
    if_pos (show "RoundedRectangle" = KIND_ROUNDED_RECTANGLE from rfl),
    rr_template_parse]
  dsimp only
  rw [rr_template_absArc]

/-- Claim C10: an `addNode` of kind RoundedRectangle whose supplied
corner_radius does not parse to an integer at least 1 (NaN/non-numeric, zero,
or negative) does not fail: `absoluteArcSize` is still set to `"1"` and
`arcSize` silently falls back to 24, exactly as if radius 12 had been
requested. -/
theorem c10_invalid_radius_fallback (g : Model) (id : String) (title : Option String)
    (x y : Int) (j : JSNum)
    (hbad : jsParseInt j = none ∨ ∃ c, jsParseInt j = some c ∧ c < 1) :
    (addNode g (rrParams id title x y (some j))).2.style =
      some (.str "whiteSpace=wrap;html=1;rounded=1;absoluteArcSize=1;arcSize=24;") ∧
    objGet (parseStyle (addNode g (rrParams id title x y (some j))).2.style) "arcSize" =
      some (.str "24") ∧
    objGet (parseStyle (addNode g (rrParams id title x y (some j))).2.style)
      "absoluteArcSize" = some (.str "1") ∧
    (addNode g (rrParams id title x y (some j))).2.style =
      (addNode g (rrParams id title x y (some (.int 12)))).2.style := by
  have harc : (match jsParseInt j with
      | some cr => if 1 ≤ cr then cr * 2 else DEFAULT_CORNER_RADIUS * 2
      | none => DEFAULT_CORNER_RADIUS * 2) = (24 : Int) := by
    rcases hbad with hj | ⟨c, hj, hc⟩
    · rw [hj]
      decide
    · rw [hj]
      show (if 1 ≤ c then c * 2 else DEFAULT_CORNER_RADIUS * 2) = 24
      rw [if_neg (by omega)]
      decide
  have hstyle : (addNode g (rrParams id title x y (some j))).2.style =
      some (.str "whiteSpace=wrap;html=1;rounded=1;absoluteArcSize=1;arcSize=24;") := by
    rw [addNode_rr_style, harc]
    decide
  refine ⟨hstyle, ?_, ?_, ?_⟩
  · rw [hstyle]
    decide
  · rw [hstyle]
    decide
  · rw [hstyle, addNode_rr_style]
    decide

theorem rr_objSet_arcSize (v : JVal) : objSet rrTemplateParsed "arcSize" v =
    [("whiteSpace", .str "wrap"), ("html", .str "1"), ("rounded", .str "1"),
     ("absoluteArcSize", .str "1"), ("arcSize", v)] := rfl

/-- Claim C4: for a corner radius `r ≥ 1` supplied to `addNode` for a
RoundedRectangle node, the resulting style's `arcSize` equals `2r` and its
`absoluteArcSize` is `"1"`; with `corner_radius` omitted, `arcSize` is 24. -/
theorem c4_corner_radius (g : Model) (id : String) (title : Option String)
    (x y : Int) (r : Int) (hr : 1 ≤ r) :
    objGet (parseStyle (addNode g (rrParams id title x y (some (.int r)))).2.style) "arcSize" =
      some (.str (toString (r * 2))) ∧
    objGet (parseStyle (addNode g (rrParams id title x y (some (.int r)))).2.style)
      "absoluteArcSize" = some (.str "1") ∧
    objGet (parseStyle (addNode g (rrParams id title x y none)).2.style) "arcSize" =
      some (.str "24") := by
  have hmatch : (match jsParseInt (.int r) with
      | some cr => if 1 ≤ cr then cr * 2 else DEFAULT_CORNER_RADIUS * 2
      | none => DEFAULT_CORNER_RADIUS * 2) = r * 2 := by
    show (if 1 ≤ r then r * 2 else DEFAULT_CORNER_RADIUS * 2) = r * 2
    rw [if_pos hr]
  have hstyle : (addNode g (rrParams id title x y (some (.int r)))).2.style =
      some (.str (stringifyStyle
        ([("whiteSpace", "wrap"), ("html", "1"), ("rounded", "1"), ("absoluteArcSize", "1"),
          ("arcSize", toString (r * 2))].map (fun kv => (kv.1, JVal.str kv.2))))) := by
    rw [addNode_rr_style, hmatch, rr_objSet_arcSize]
    rfl
  have hrt : parseStyleStr (stringifyStyle
      ([("whiteSpace", "wrap"), ("html", "1"), ("rounded", "1"), ("absoluteArcSize", "1"),
        ("arcSize", toString (r * 2))].map (fun kv => (kv.1, JVal.str kv.2)))) =
      [("whiteSpace", "wrap"), ("html", "1"), ("rounded", "1"), ("absoluteArcSize", "1"),
       ("arcSize", toString (r * 2))] := by
    apply parseStyleStr_stringifyStyle
    · show (["whiteSpace", "html", "rounded", "absoluteArcSize", "arcSize"] :
        List String).Nodup
      decide
    · intro kv hkv
      have hgood := intToString_good (r * 2) (by omega)
      simp only [List.mem_cons, List.not_mem_nil, or_false] at hkv
      rcases hkv with rfl | rfl | rfl | rfl | rfl
      · exact ⟨by decide, by decide, by decide, by decide, by decide⟩
      · exact ⟨by decide, by decide, by decide, by decide, by decide⟩
      · exact ⟨by decide, by decide, by decide, by decide, by decide⟩
      · exact ⟨by decide, by decide, by decide, by decide, by decide⟩
      · refine ⟨?_, ?_, ?_, hgood.2.1, hgood.2.2⟩
        · show "arcSize" ≠ ""
          decide
        · show ';' ∉ "arcSize".data
          decide
        · show '=' ∉ "arcSize".data
          decide
  have hnone : (addNode g (rrParams id title x y none)).2.style =
      some (.str "whiteSpace=wrap;html=1;rounded=1;absoluteArcSize=1;arcSize=24;") := by
    have h0 : (addNode g (rrParams id title x y none)).2.style =
        mergeStyleOverrides (adjustStyleByKind
          (some (.str "whiteSpace=wrap;html=1;rounded=1;absoluteArcSize=1;arcSize=24"))
          "RoundedRectangle" none) {} := rfl
    rw [h0]
    decide
  refine ⟨?_, ?_, ?_⟩
  · rw [hstyle]
    show objGet ((parseStyleStr _).map (fun p => (p.1, JVal.str p.2))) "arcSize" = _
    rw [hrt]
    rfl
  · rw [hstyle]
    show objGet ((parseStyleStr _).map (fun p => (p.1, JVal.str p.2))) "absoluteArcSize" = _
    rw [hrt]
    rfl
  · rw [hnone]
    decide

theorem c4_corner_radius_witness :
    objGet (parseStyle (addNode [] (rrParams "r" none 10 10 (some (.int 5)))).2.style)
      "arcSize" = some (.str (toString ((5 : Int) * 2))) ∧
    objGet (parseStyle (addNode [] (rrParams "r" none 10 10 (some (.int 5)))).2.style)
      "absoluteArcSize" = some (.str "1") ∧
    objGet (parseStyle (addNode [] (rrParams "r" none 10 10 none)).2.style) "arcSize" =
      some (.str "24") :=
  c4_corner_radius [] "r" none 10 10 5 (by decide)

/-- Claim C5: `linkNodes` fails with a reference error (no edge is created)
whenever, at edge-creation time (no existing candidate edge to update), the
from id or the to id does not resolve to an existing cell. -/
theorem c5_link_missing_node (g : Model) (p : LinkNodesParams)
    (hD : getCell g (idDirectOf p.fromId p.toId) = none)
    (hR : getCell g (idDirectOf p.toId p.fromId) = none)
    (hC : getCell g (idCanonicalOf p.fromId p.toId) = none)
    (hmiss : getCell g p.fromId = none ∨ getCell g p.toId = none) :
    linkNodes g p = .error "referenced node id not found" := by
  rcases hmiss with hm | hm
  · simp [linkNodes, hD, hR, hC, hm, Option.orElse]
  · cases hF : getCell g p.fromId with
    | none => simp [linkNodes, hD, hR, hC, hF, Option.orElse]
    | some c => simp [linkNodes, hD, hR, hC, hF, hm, Option.orElse]

theorem c5_link_missing_node_witness :
    linkNodes [] { fromId := "a", toId := "b" } = .error "referenced node id not found" :=
  c5_link_missing_node [] { fromId := "a", toId := "b" }
    (by decide) (by decide) (by decide) (Or.inl (by decide))

/-- Claim C9: removing a node removes it and every edge whose source or
target is it (they disappear from subsequent lookups); an id naming an edge
removes only that edge. -/
theorem c9_remove_cascade (g : Model) (a e : String) (ca ce : Cell)
    (ha : getCell g a = some ca) (hva : ca.vertex = true)
    (he : getCell g e = some ce) (hee : ce.edge = true) (hve : ce.vertex = false) :
    removeNodes g [a] = g.filter (fun c =>
      !(a == c.id || (c.edge && (c.source == some a || c.target == some a)))) ∧
    getCell (removeNodes g [a]) a = none ∧
    (∀ c ∈ removeNodes g [a], ¬(c.edge = true ∧ (c.source = some a ∨ c.target = some a))) ∧
    removeNodes g [e] = g.filter (fun c => !(e == c.id)) := by
  have hsub : ca.id = a := getCell_id g a ca ha
  have hsub2 : ce.id = e := getCell_id g e ce he
  have h1 : removeNodes g [a] = g.filter (fun c =>
      !(a == c.id || (c.edge && (c.source == some a || c.target == some a)))) := by
    rw [removeNodes]
    have htargets : List.filterMap (fun id => getCell g id) [a] = [ca] := by simp [ha]
    rw [htargets]
    apply List.filter_congr
    intro c _
    simp [hsub, hva]
  have h4 : removeNodes g [e] = g.filter (fun c => !(e == c.id)) := by
    rw [removeNodes]
    have htargets : List.filterMap (fun id => getCell g id) [e] = [ce] := by simp [he]
    rw [htargets]
    apply List.filter_congr
    intro c _
    simp [hsub2, hve]
  refine ⟨h1, ?_, ?_, h4⟩
  · rw [h1, getCell_eq_none]
    intro c hc
    have hpred := (List.mem_filter.mp hc).2
    simp only [Bool.not_eq_true', Bool.or_eq_false_iff, beq_eq_false_iff_ne] at hpred
    exact fun hid => hpred.1 (hid ▸ rfl)
  · rw [h1]
    intro c hc hbad
    have hpred := (List.mem_filter.mp hc).2
    simp only [Bool.not_eq_true', Bool.or_eq_false_iff, Bool.and_eq_false_iff] at hpred
    rcases hpred.2 with hedge | hterm
    · rw [hbad.1] at hedge
      exact absurd hedge (by decide)
    · rcases hbad.2 with hs | ht
      · have hts : (c.source == some a) = true := by rw [hs]; exact beq_self_eq_true _
        rw [hterm.1] at hts
        exact absurd hts (by decide)
      · have htt : (c.target == some a) = true := by rw [ht]; exact beq_self_eq_true _
        rw [hterm.2] at htt
        exact absurd htt (by decide)

/-- A sample vertex used in the concrete witnesses. -/
def sampleVertex (i : String) : Cell :=
  { id := i, value := some i, style := none, vertex := true, edge := false,
    source := none, target := none, x := 0, y := 0, width := 120, height := 60,
    points := [], parent := none }

/-- A sample edge between `svc` and `db` used in the concrete witnesses. -/
def sampleEdge : Cell :=
  { id := "svc-2-db", value := some "queries", style := none, vertex := false, edge := true,
    source := some "svc", target := some "db", x := 0, y := 0, width := 0, height := 0,
    points := [], parent := none }

/-- A sample diagram: two vertices and one edge between them. -/
def sampleG : Model := [sampleVertex "svc", sampleVertex "db", sampleEdge]

theorem c9_remove_cascade_witness :
    removeNodes sampleG ["svc"] = sampleG.filter (fun c =>
      !("svc" == c.id || (c.edge && (c.source == some "svc" || c.target == some "svc")))) ∧
    getCell (removeNodes sampleG ["svc"]) "svc" = none ∧
    (∀ c ∈ removeNodes sampleG ["svc"],
      ¬(c.edge = true ∧ (c.source = some "svc" ∨ c.target = some "svc"))) ∧
    removeNodes sampleG ["svc-2-db"] = sampleG.filter (fun c => !("svc-2-db" == c.id)) :=
  c9_remove_cascade sampleG "svc" "svc-2-db" (sampleVertex "svc") sampleEdge
    (by decide) (by decide) (by decide) (by decide) (by decide)

theorem c10_invalid_radius_fallback_witness :
    (addNode [] (rrParams "r" none 10 10 (some .nan))).2.style =
      some (.str "whiteSpace=wrap;html=1;rounded=1;absoluteArcSize=1;arcSize=24;") ∧
    objGet (parseStyle (addNode [] (rrParams "r" none 10 10 (some .nan))).2.style) "arcSize" =
      some (.str "24") ∧
    objGet (parseStyle (addNode [] (rrParams "r" none 10 10 (some .nan))).2.style)
      "absoluteArcSize" = some (.str "1") ∧
    (addNode [] (rrParams "r" none 10 10 (some .nan))).2.style =
      (addNode [] (rrParams "r" none 10 10 (some (.int 12)))).2.style :=
  c10_invalid_radius_fallback [] "r" none 10 10 .nan (Or.inl rfl)

theorem truthyOpt_none : truthyOpt none = false := rfl

theorem definedOverrides_default : definedOverrides {} = [] := rfl

theorem opt_eq_none_of_not_isSome {α : Type} (o : Option α) (h : o.isSome ≠ true) :
    o = none := by
  cases o with
  | none => rfl
  | some v => exact absurd rfl h

/-- Claim C6 counterexample: a provided empty-string title is a provided
field, yet `editNode` (whose title check is by truthiness) leaves the
previous label in place instead of overwriting it. -/
theorem c6_counterexample :
    editNode [sampleVertex "svc"] { id := "svc", title := some "" } =
      .ok [sampleVertex "svc"] ∧
    (sampleVertex "svc").value = some "svc" ∧
    (some "svc" : Option String) ≠ some "" := by
  refine ⟨by rfl, by decide, by decide⟩

/-- Claim C6 (amended): `editNode` on an existing node overwrites exactly the
provided fields and leaves omitted ones unchanged, except that a provided
empty-string title is ignored (applied only when truthy); the geometry fields
x, y, width, height merge individually, each defaulting to the node's current
value when not supplied, never to zero. -/
theorem c6_edit_merges_fields (g : Model) (id : String) (node0 : Cell)
    (t : Option String) (xo yo wo ho : Option Int)
    (hn : getCell g id = some node0) :
    editNode g { id := id, title := t, x := xo, y := yo, width := wo, height := ho } =
      .ok (updCell g id (fun _ =>
        { node0 with
          value := if truthyOpt t then t else node0.value,
          x := xo.getD node0.x, y := yo.getD node0.y,
          width := wo.getD node0.width, height := ho.getD node0.height })) := by
  by_cases hgeo : xo.isSome = true ∨ yo.isSome = true ∨ wo.isSome = true ∨ ho.isSome = true
  · by_cases ht : truthyOpt t = true
    · cases node0
      simp [editNode, hn, ht, hgeo, truthyOpt_none, definedOverrides_default]
    · cases node0
      simp [editNode, hn, ht, hgeo, truthyOpt_none, definedOverrides_default]
  · push_neg at hgeo
    obtain ⟨hx, hy, hw, hh⟩ := hgeo
    have hx2 := opt_eq_none_of_not_isSome xo hx
    have hy2 := opt_eq_none_of_not_isSome yo hy
    have hw2 := opt_eq_none_of_not_isSome wo hw
    have hh2 := opt_eq_none_of_not_isSome ho hh
    subst hx2
    subst hy2
    subst hw2
    subst hh2
    by_cases ht : truthyOpt t = true
    · cases node0
      simp [editNode, hn, ht, truthyOpt_none, definedOverrides_default]
    · cases node0
      simp [editNode, hn, ht, truthyOpt_none, definedOverrides_default]

/-- The edit of concrete scenario 5: only `y := 300` supplied. -/
def c6EditParams : EditNodeParams :=
  { id := "svc", title := none, x := none, y := some 300, width := none, height := none }

/-- The expected cell after the scenario-5 edit. -/
def c6ResultCell : Cell :=
  { sampleVertex "svc" with
    value := if truthyOpt none = true then none else (sampleVertex "svc").value,
    x := (none : Option Int).getD (sampleVertex "svc").x,
    y := (some (300 : Int)).getD (sampleVertex "svc").y,
    width := (none : Option Int).getD (sampleVertex "svc").width,
    height := (none : Option Int).getD (sampleVertex "svc").height }

theorem c6_edit_merges_fields_witness :
    editNode sampleG c6EditParams = .ok (updCell sampleG "svc" (fun _ => c6ResultCell)) :=
  c6_edit_merges_fields sampleG "svc" (sampleVertex "svc") none none (some 300) none none
    (by decide)

/-- Claim C2 counterexample: the mapping `{"k" ↦ "a;b"}` has string keys and
defined values, yet `parse(stringify(m))` is `{"k" ↦ "a", "b" ↦ ""}`, not
`m`: values containing the separator are not transported. -/
theorem c2_counterexample :
    parseStyle (some (.str (stringifyStyle [("k", JVal.str "a;b")]))) ≠
      [("k", JVal.str "a;b")] ∧
    parseStyle (some (.str (stringifyStyle [("k", JVal.str "a;b")]))) =
      [("k", JVal.str "a"), ("b", JVal.str "")] := by
  refine ⟨by decide, by decide⟩

/-- Claim C2 (amended): for every style mapping whose keys are nonempty and
whose keys and values contain neither `;` nor `=`, re-parsing the
stringified mapping recovers exactly the same key/value pairs (the full list,
hence key/value set equality). -/
theorem c2_parse_stringify_roundtrip (m : List (String × String))
    (hnd : (m.map Prod.fst).Nodup) (hg : ∀ kv ∈ m, goodPair kv) :
    parseStyle (some (.str (stringifyStyle (m.map (fun kv => (kv.1, JVal.str kv.2)))))) =
      m.map (fun kv => (kv.1, JVal.str kv.2)) := by
  show (parseStyleStr (stringifyStyle (m.map (fun kv => (kv.1, JVal.str kv.2))))).map
    (fun p => (p.1, JVal.str p.2)) = _
  rw [parseStyleStr_stringifyStyle m hnd hg]

theorem c2_parse_stringify_roundtrip_witness :
    parseStyle (some (.str (stringifyStyle ([("rounded", "1"), ("whiteSpace", "wrap"),
      ("html", "1")].map (fun kv => (kv.1, JVal.str kv.2)))))) =
      [("rounded", "1"), ("whiteSpace", "wrap"), ("html", "1")].map
        (fun kv => (kv.1, JVal.str kv.2)) :=
  c2_parse_stringify_roundtrip [("rounded", "1"), ("whiteSpace", "wrap"), ("html", "1")]
    (by decide) (by decide)

/-- Convenience constructor for `LinkNodesParams`. -/
def linkParams (a b : String) (t : Option String) (s : List (String × JVal)) (u : Bool)
    (w : List (Int × Int)) (es : Option EdgeStyleName) : LinkNodesParams :=
  { fromId := a, toId := b, title := t, style := s, undirected := u, waypoints := w,
    edgeStyle := es }

theorem linkNodes_insert (g : Model) (p : LinkNodesParams)
    (hD : getCell g (idDirectOf p.fromId p.toId) = none)
    (hR : getCell g (idDirectOf p.toId p.fromId) = none)
    (hC : getCell g (idCanonicalOf p.fromId p.toId) = none)
    (hFa : (getCell g p.fromId).isSome = true) (hFb : (getCell g p.toId).isSome = true) :
    linkNodes g p = .ok (g ++ [newEdgeCell p],
      if p.undirected then idCanonicalOf p.fromId p.toId else idDirectOf p.fromId p.toId) := by
  cases hfa : getCell g p.fromId with
  | none => rw [hfa] at hFa; exact absurd hFa (by decide)
  | some ca =>
    cases hfb : getCell g p.toId with
    | none => rw [hfb] at hFb; exact absurd hFb (by decide)
    | some cb => simp [linkNodes, hD, hR, hC, hfa, hfb, Option.orElse]

theorem linkNodes_found (g : Model) (p : LinkNodesParams) (e0 : Cell)
    (hex : ((getCell g (idDirectOf p.fromId p.toId)).orElse
      (fun _ => getCell g (idDirectOf p.toId p.fromId))).orElse
      (fun _ => getCell g (idCanonicalOf p.fromId p.toId)) = some e0) :
    linkNodes g p = .ok (updCell g e0.id (linkUpdateF p), e0.id) := by
  simp only [linkNodes, hex]

theorem charListLe_iff (as : List Char) : ∀ bs : List Char,
    charListLe as bs = true ↔ ¬ bs < as := by
  induction as with
  | nil =>
    intro bs
    constructor
    · intro _ h
      cases bs with
      | nil => cases h
      | cons b bs => cases h
    · intro _
      rfl
  | cons a as ih =>
    intro bs
    cases bs with
    | nil =>
      rw [charListLe]
      constructor
      · intro h
        cases h
      · intro h
        exact absurd (List.nil_lt_cons a as) h
    | cons b bs =>
      rw [charListLe]
      by_cases hab : a < b
      · rw [if_pos hab]
        constructor
        · intro _ hlt
          cases hlt with
          | cons h2 => exact absurd hab (lt_irrefl _)
          | rel h2 => exact absurd hab (asymm h2)
        · intro _
          rfl
      · rw [if_neg hab]
        by_cases hba : b < a
        · rw [if_pos hba]
          constructor
          · intro h
            cases h
          · intro h
            exact absurd (List.Lex.rel hba) h
        · rw [if_neg hba]
          have hEq : a = b := le_antisymm (le_of_not_lt hba) (le_of_not_lt hab)
          subst hEq
          rw [ih bs]
          constructor
          · intro h hlt
            cases hlt with
            | cons h2 => exact h h2
            | rel h2 => exact absurd h2 (lt_irrefl _)
          · intro h hlt
            exact h (List.Lex.cons hlt)

theorem strLe_iff (a b : String) : charListLe a.data b.data = true ↔ a ≤ b := by
  rw [String.le_iff_toList_le, ← not_lt]
  exact charListLe_iff a.data b.data

theorem idCanonicalOf_eq_min_max (a b : String) :
    idCanonicalOf a b = if a ≤ b then a ++ "-2-" ++ b else b ++ "-2-" ++ a := by
  rw [idCanonicalOf]
  by_cases h : a ≤ b
  · rw [if_pos ((strLe_iff a b).mpr h), if_pos h]
  · rw [if_neg h, if_neg]
    intro hc
    exact h ((strLe_iff a b).mp hc)

theorem idCanonicalOf_symm (a b : String) : idCanonicalOf a b = idCanonicalOf b a := by
  rw [idCanonicalOf_eq_min_max, idCanonicalOf_eq_min_max]
  by_cases h1 : a ≤ b
  · by_cases h2 : b ≤ a
    · have heq : a = b := le_antisymm h1 h2
      subst heq
      simp
    · rw [if_pos h1, if_neg h2]
  · rw [if_neg h1, if_pos (le_of_not_le h1)]

/-- Claim C3: in a diagram containing no edge between A and B under the
direct, reverse, or canonical identifier (and both nodes present),
`linkNodes` with `undirected := true` creates a new edge whose identifier is
the canonical `min-2-max` of the lexicographic ordering of the two ids; when
`undirected` is not set the new edge's identifier is the direct `A-2-B`. -/
theorem c3_new_edge_ids (g : Model) (A B : String) (t : Option String)
    (s : List (String × JVal)) (w : List (Int × Int)) (es : Option EdgeStyleName)
    (hA : (getCell g A).isSome = true) (hB : (getCell g B).isSome = true)
    (hD : getCell g (idDirectOf A B) = none)
    (hR : getCell g (idDirectOf B A) = none)
    (hC : getCell g (idCanonicalOf A B) = none) :
    idCanonicalOf A B = (if A ≤ B then A ++ "-2-" ++ B else B ++ "-2-" ++ A) ∧
    idDirectOf A B = A ++ "-2-" ++ B ∧
    (∃ g2, linkNodes g (linkParams A B t s true w es) = .ok (g2, idCanonicalOf A B) ∧
      ∃ e, getCell g2 (idCanonicalOf A B) = some e ∧ e.edge = true ∧
        e.source = some A ∧ e.target = some B) ∧
    (∃ g2, linkNodes g (linkParams A B t s false w es) = .ok (g2, idDirectOf A B) ∧
      ∃ e, getCell g2 (idDirectOf A B) = some e ∧ e.edge = true ∧
        e.source = some A ∧ e.target = some B) := by
  refine ⟨idCanonicalOf_eq_min_max A B, rfl, ?_, ?_⟩
  · have h := linkNodes_insert g (linkParams A B t s true w es) hD hR hC hA hB
    refine ⟨g ++ [newEdgeCell (linkParams A B t s true w es)], by rw [h]; rfl, ?_⟩
    refine ⟨newEdgeCell (linkParams A B t s true w es), ?_, rfl, rfl, rfl⟩
    rw [getCell_append, hC]
    show getCell [newEdgeCell (linkParams A B t s true w es)] (idCanonicalOf A B) =
      some (newEdgeCell (linkParams A B t s true w es))
    simp [getCell, newEdgeCell, linkParams]
  · have h := linkNodes_insert g (linkParams A B t s false w es) hD hR hC hA hB
    refine ⟨g ++ [newEdgeCell (linkParams A B t s false w es)], by rw [h]; rfl, ?_⟩
    refine ⟨newEdgeCell (linkParams A B t s false w es), ?_, rfl, rfl, rfl⟩
    rw [getCell_append, hD]
    show getCell [newEdgeCell (linkParams A B t s false w es)] (idDirectOf A B) =
      some (newEdgeCell (linkParams A B t s false w es))
    simp [getCell, newEdgeCell, linkParams]

theorem c3_new_edge_ids_witness :
    idCanonicalOf "svc" "db" = (if "svc" ≤ "db" then "svc" ++ "-2-" ++ "db"
      else "db" ++ "-2-" ++ "svc") ∧
    idDirectOf "svc" "db" = "svc" ++ "-2-" ++ "db" ∧
    (∃ g2, linkNodes [sampleVertex "svc", sampleVertex "db"]
        (linkParams "svc" "db" none [] true [] none) = .ok (g2, idCanonicalOf "svc" "db") ∧
      ∃ e, getCell g2 (idCanonicalOf "svc" "db") = some e ∧ e.edge = true ∧
        e.source = some "svc" ∧ e.target = some "db") ∧
    (∃ g2, linkNodes [sampleVertex "svc", sampleVertex "db"]
        (linkParams "svc" "db" none [] false [] none) = .ok (g2, idDirectOf "svc" "db") ∧
      ∃ e, getCell g2 (idDirectOf "svc" "db") = some e ∧ e.edge = true ∧
        e.source = some "svc" ∧ e.target = some "db") :=
  c3_new_edge_ids [sampleVertex "svc", sampleVertex "db"] "svc" "db" none [] [] none
    (by decide) (by decide) (by decide) (by decide) (by decide)

theorem getCell_singleton (c : Cell) (i : String) :
    getCell [c] i = if c.id == i then some c else none := by
  rw [getCell, List.find?]
  cases h : (c.id == i) <;> simp [h]

theorem orElse3_some (o1 o2 o3 : Option Cell) (E : Cell)
    (h1 : o1 = none ∨ o1 = some E) (h2 : o2 = none ∨ o2 = some E)
    (h3 : o3 = none ∨ o3 = some E)
    (hsome : o1 = some E ∨ o2 = some E ∨ o3 = some E) :
    (o1.orElse (fun _ => o2)).orElse (fun _ => o3) = some E := by
  rcases h1 with h1 | h1 <;> rcases h2 with h2 | h2 <;> rcases h3 with h3 | h3 <;>
    subst h1 <;> subst h2 <;> subst h3 <;>
    simp [Option.orElse] at hsome ⊢

theorem orElse3_none (o1 o2 o3 : Option Cell)
    (h : (o1.orElse (fun _ => o2)).orElse (fun _ => o3) = none) :
    o1 = none ∧ o2 = none ∧ o3 = none := by
  cases o1 <;> cases o2 <;> cases o3 <;> simp [Option.orElse] at h ⊢

theorem orElse3_cases (o1 o2 o3 : Option Cell) (e : Cell)
    (h : (o1.orElse (fun _ => o2)).orElse (fun _ => o3) = some e) :
    o1 = some e ∨ o2 = some e ∨ o3 = some e := by
  cases o1 <;> cases o2 <;> cases o3 <;> simp [Option.orElse] at h <;> simp [h]

theorem linkUpdateF_id (p : LinkNodesParams) (c : Cell) : (linkUpdateF p c).id = c.id := by
  by_cases h1 : p.title.isSome = true <;> by_cases h2 : p.waypoints ≠ [] <;>
    simp [linkUpdateF, h1, h2]

theorem linkUpdateF_edge (p : LinkNodesParams) (c : Cell) :
    (linkUpdateF p c).edge = c.edge := by
  by_cases h1 : p.title.isSome = true <;> by_cases h2 : p.waypoints ≠ [] <;>
    simp [linkUpdateF, h1, h2]

theorem linkUpdateF_source (p : LinkNodesParams) (c : Cell) :
    (linkUpdateF p c).source = c.source := by
  by_cases h1 : p.title.isSome = true <;> by_cases h2 : p.waypoints ≠ [] <;>
    simp [linkUpdateF, h1, h2]

theorem linkUpdateF_target (p : LinkNodesParams) (c : Cell) :
    (linkUpdateF p c).target = c.target := by
  by_cases h1 : p.title.isSome = true <;> by_cases h2 : p.waypoints ≠ [] <;>
    simp [linkUpdateF, h1, h2]

theorem linkUpdateF_value (p : LinkNodesParams) (c : Cell) :
    (linkUpdateF p c).value = if p.title.isSome then p.title else c.value := by
  by_cases h1 : p.title.isSome = true <;> by_cases h2 : p.waypoints ≠ [] <;>
    simp [linkUpdateF, h1, h2]

theorem isEdgeBetweenB_linkUpdateF (p : LinkNodesParams) (c : Cell) (a b : String) :
    isEdgeBetweenB (linkUpdateF p c) a b = isEdgeBetweenB c a b := by
  rw [isEdgeBetweenB, isEdgeBetweenB, linkUpdateF_edge, linkUpdateF_source,
    linkUpdateF_target]

theorem isEdgeBetweenB_updFun (p : LinkNodesParams) (i : String) (c : Cell) (a b : String) :
    isEdgeBetweenB (if c.id == i then linkUpdateF p c else c) a b = isEdgeBetweenB c a b := by
  by_cases h : (c.id == i) = true <;> simp [h, isEdgeBetweenB_linkUpdateF]

theorem option_all_some {o : Option Cell} {p : Cell → Bool} (h : o.all p = true)
    {c : Cell} (hc : o = some c) : p c = true := by
  subst hc
  exact h

theorem getCell_append_single (g : Model) (E : Cell) (x : String)
    (hx : getCell g x = none) :
    getCell (g ++ [E]) x = none ∨ getCell (g ++ [E]) x = some E := by
  rw [getCell_append, hx, getCell_singleton]
  cases h : (E.id == x) <;> simp [h, Option.or]

theorem getCell_append_single_hit (g : Model) (E : Cell) (x : String)
    (hx : getCell g x = none) (hit : E.id = x) :
    getCell (g ++ [E]) x = some E := by
  rw [getCell_append, hx, getCell_singleton, if_pos (by rw [hit]; exact beq_self_eq_true x)]
  rfl

theorem getCell_upd_comp (g : Model) (e0 : Cell) (F : Cell → Cell)
    (hFid : ∀ c, (F c).id = c.id) (x : String)
    (hx : ∀ c, getCell g x = some c → c = e0) :
    getCell (updCell g e0.id F) x = none ∨ getCell (updCell g e0.id F) x = some (F e0) := by
  rw [getCell_updCell g e0.id F hFid x]
  cases hg : getCell g x with
  | none => exact Or.inl rfl
  | some c =>
    have hc := hx c hg
    subst hc
    right
    simp

theorem getCell_upd_hit (g : Model) (e0 : Cell) (F : Cell → Cell)
    (hFid : ∀ c, (F c).id = c.id) (x : String) (hx : getCell g x = some e0) :
    getCell (updCell g e0.id F) x = some (F e0) := by
  rw [getCell_updCell g e0.id F hFid x, hx]
  simp

/-- Claim C1 (amended): for nodes A and B in a diagram with unique cell
identifiers in which every A-B edge lives under one of the three candidate
identifiers, every cell stored under a candidate identifier is an A-B edge,
and at most one A-B edge exists, linkNodes(A,B) followed by linkNodes(B,A)
(with any titles, styles, waypoints, or directedness flags) leaves exactly
one edge between A and B; its identifier is the one the first call produced,
and its label is the last title supplied — except that an empty-string title
supplied at edge-creation time is stored as an absent label (the source's
truthiness check), so the final-label guarantee holds for a second-call
title always, and for a first-call-only title when it is non-empty.  The
counterexample shows each scope condition is necessary: the code violates
the conclusions on diagrams outside any one of them. -/
theorem c1_link_idempotent (g : Model) (A B : String) (t1 t2 : Option String)
    (s1 s2 : List (String × JVal)) (u1 u2 : Bool) (w1 w2 : List (Int × Int))
    (es1 es2 : Option EdgeStyleName)
    (hwf : (g.map Cell.id).Nodup)
    (hA : (getCell g A).isSome = true) (hB : (getCell g B).isSome = true)
    (hclean : ∀ c ∈ g, isEdgeBetweenB c A B = true →
      c.id = idDirectOf A B ∨ c.id = idDirectOf B A ∨ c.id = idCanonicalOf A B)
    (hcand : ∀ i ∈ [idDirectOf A B, idDirectOf B A, idCanonicalOf A B],
      (getCell g i).all (fun c => isEdgeBetweenB c A B) = true)
    (hone : ∀ c1 ∈ g, ∀ c2 ∈ g, isEdgeBetweenB c1 A B = true →
      isEdgeBetweenB c2 A B = true → c1 = c2) :
    ∃ g1 id1 g2 id2,
      linkNodes g (linkParams A B t1 s1 u1 w1 es1) = .ok (g1, id1) ∧
      linkNodes g1 (linkParams B A t2 s2 u2 w2 es2) = .ok (g2, id2) ∧
      id2 = id1 ∧
      ∃ e, edgesBetween g2 A B = [e] ∧ e.id = id1 ∧
        (∀ s, t2 = some s → e.value = some s) ∧
        (∀ s, t2 = none → t1 = some s → s ≠ "" → e.value = some s) := by
  have hcD := hcand (idDirectOf A B) (by simp)
  have hcR := hcand (idDirectOf B A) (by simp)
  have hcC := hcand (idCanonicalOf A B) (by simp)
  cases hex1 : ((getCell g (idDirectOf A B)).orElse
      (fun _ => getCell g (idDirectOf B A))).orElse
      (fun _ => getCell g (idCanonicalOf A B)) with
  | none =>
    obtain ⟨hD, hR, hC⟩ := orElse3_none _ _ _ hex1
    have h1 := linkNodes_insert g (linkParams A B t1 s1 u1 w1 es1) hD hR hC hA hB
    have hEid : (newEdgeCell (linkParams A B t1 s1 u1 w1 es1)).id =
        if u1 then idCanonicalOf A B else idDirectOf A B := rfl
    -- components of the second call's candidate chain over g1 = g ++ [E]
    have hCsymm : idCanonicalOf B A = idCanonicalOf A B := idCanonicalOf_symm B A
    have hcomp1 := getCell_append_single g (newEdgeCell (linkParams A B t1 s1 u1 w1 es1))
      (idDirectOf B A) hR
    have hcomp2 := getCell_append_single g (newEdgeCell (linkParams A B t1 s1 u1 w1 es1))
      (idDirectOf A B) hD
    have hcomp3 := getCell_append_single g (newEdgeCell (linkParams A B t1 s1 u1 w1 es1))
      (idCanonicalOf B A) (by rw [hCsymm]; exact hC)
    have hhit : getCell (g ++ [newEdgeCell (linkParams A B t1 s1 u1 w1 es1)])
          (idDirectOf A B) = some (newEdgeCell (linkParams A B t1 s1 u1 w1 es1)) ∨
        getCell (g ++ [newEdgeCell (linkParams A B t1 s1 u1 w1 es1)])
          (idCanonicalOf B A) = some (newEdgeCell (linkParams A B t1 s1 u1 w1 es1)) := by
      cases u1 with
      | false =>
        left
        exact getCell_append_single_hit g _ _ hD (by rw [hEid]; simp)
      | true =>
        right
        refine getCell_append_single_hit g _ _ (by rw [hCsymm]; exact hC) ?_
        rw [hEid, hCsymm]
        simp
    have hex2 : ((getCell (g ++ [newEdgeCell (linkParams A B t1 s1 u1 w1 es1)])
          (idDirectOf B A)).orElse
        (fun _ => getCell (g ++ [newEdgeCell (linkParams A B t1 s1 u1 w1 es1)])
          (idDirectOf A B))).orElse
        (fun _ => getCell (g ++ [newEdgeCell (linkParams A B t1 s1 u1 w1 es1)])
          (idCanonicalOf B A)) = some (newEdgeCell (linkParams A B t1 s1 u1 w1 es1)) := by
      refine orElse3_some _ _ _ _ hcomp1 hcomp2 hcomp3 ?_
      rcases hhit with h | h
      · exact Or.inr (Or.inl h)
      · exact Or.inr (Or.inr h)
    have h2 := linkNodes_found (g ++ [newEdgeCell (linkParams A B t1 s1 u1 w1 es1)])
      (linkParams B A t2 s2 u2 w2 es2) (newEdgeCell (linkParams A B t1 s1 u1 w1 es1)) hex2
    refine ⟨g ++ [newEdgeCell (linkParams A B t1 s1 u1 w1 es1)],
      if u1 then idCanonicalOf A B else idDirectOf A B, _, _, by exact h1, by exact h2,
      hEid, ?_⟩
    -- the single A-B edge of the final diagram
    have hEedge : isEdgeBetweenB (newEdgeCell (linkParams A B t1 s1 u1 w1 es1)) A B = true := by
      simp [isEdgeBetweenB, newEdgeCell, linkParams]
    have hnilg : edgesBetween g A B = [] := by
      rw [edgesBetween, List.filter_eq_nil_iff]
      intro c hc hpc
      rcases hclean c hc hpc with hid | hid | hid
      · rw [getCell_eq_none] at hD
        exact hD c hc hid
      · rw [getCell_eq_none] at hR
        exact hR c hc hid
      · rw [getCell_eq_none] at hC
        exact hC c hc hid
    refine ⟨linkUpdateF (linkParams B A t2 s2 u2 w2 es2)
      (newEdgeCell (linkParams A B t1 s1 u1 w1 es1)), ?_, ?_, ?_, ?_⟩
    · show edgesBetween (updCell (g ++ [newEdgeCell (linkParams A B t1 s1 u1 w1 es1)])
        (newEdgeCell (linkParams A B t1 s1 u1 w1 es1)).id
        (linkUpdateF (linkParams B A t2 s2 u2 w2 es2))) A B = _
      rw [updCell, edgesBetween_map _ _ A B
        (fun c => isEdgeBetweenB_updFun (linkParams B A t2 s2 u2 w2 es2) _ c A B)]
      rw [edgesBetween_append, hnilg, List.nil_append]
      have hsingle : edgesBetween [newEdgeCell (linkParams A B t1 s1 u1 w1 es1)] A B =
          [newEdgeCell (linkParams A B t1 s1 u1 w1 es1)] := by
        rw [edgesBetween, List.filter_cons, if_pos hEedge]
        rfl
      rw [hsingle, List.map_cons, List.map_nil, if_pos (beq_self_eq_true _)]
    · rw [linkUpdateF_id, hEid]
    · intro s hs
      rw [linkUpdateF_value]
      subst hs
      rfl
    · intro s hs2 hs1 hne
      rw [linkUpdateF_value]
      subst hs2
      subst hs1
      show (if truthyOpt (some s) = true then some s else none) = some s
      rw [if_pos]
      simp only [truthyOpt, decide_eq_true_eq]
      exact hne
  | some e0 =>
    have he0cases := orElse3_cases _ _ _ e0 hex1
    have he0edge : isEdgeBetweenB e0 A B = true := by
      rcases he0cases with h | h | h
      · exact option_all_some hcD h
      · exact option_all_some hcR h
      · exact option_all_some hcC h
    have he0mem : e0 ∈ g := by
      rcases he0cases with h | h | h
      · exact getCell_mem _ _ _ h
      · exact getCell_mem _ _ _ h
      · exact getCell_mem _ _ _ h
    have h1 := linkNodes_found g (linkParams A B t1 s1 u1 w1 es1) e0 hex1
    have hF1id : ∀ c, (linkUpdateF (linkParams A B t1 s1 u1 w1 es1) c).id = c.id :=
      linkUpdateF_id _
    have huniq : ∀ c, ∀ x ∈ [idDirectOf A B, idDirectOf B A, idCanonicalOf A B],
        getCell g x = some c → c = e0 := by
      intro c x hx hgx
      have hcx := option_all_some (hcand x hx) hgx
      exact hone c (getCell_mem _ _ _ hgx) e0 he0mem hcx he0edge
    have hCsymm : idCanonicalOf B A = idCanonicalOf A B := idCanonicalOf_symm B A
    have hcomp1 := getCell_upd_comp g e0 _ hF1id (idDirectOf B A)
      (fun c hc => huniq c _ (by simp) hc)
    have hcomp2 := getCell_upd_comp g e0 _ hF1id (idDirectOf A B)
      (fun c hc => huniq c _ (by simp) hc)
    have hcomp3 := getCell_upd_comp g e0 _ hF1id (idCanonicalOf B A)
      (fun c hc => huniq c (idCanonicalOf A B) (by simp) (by rw [← hCsymm]; exact hc))
    have hhit : getCell (updCell g e0.id (linkUpdateF (linkParams A B t1 s1 u1 w1 es1)))
          (idDirectOf B A) = some (linkUpdateF (linkParams A B t1 s1 u1 w1 es1) e0) ∨
        getCell (updCell g e0.id (linkUpdateF (linkParams A B t1 s1 u1 w1 es1)))
          (idDirectOf A B) = some (linkUpdateF (linkParams A B t1 s1 u1 w1 es1) e0) ∨
        getCell (updCell g e0.id (linkUpdateF (linkParams A B t1 s1 u1 w1 es1)))
          (idCanonicalOf B A) = some (linkUpdateF (linkParams A B t1 s1 u1 w1 es1) e0) := by
      rcases he0cases with h | h | h
      · exact Or.inr (Or.inl (getCell_upd_hit g e0 _ hF1id _ h))
      · exact Or.inl (getCell_upd_hit g e0 _ hF1id _ h)
      · exact Or.inr (Or.inr (getCell_upd_hit g e0 _ hF1id _ (by rw [hCsymm]; exact h)))
    have hex2 : ((getCell (updCell g e0.id (linkUpdateF (linkParams A B t1 s1 u1 w1 es1)))
          (idDirectOf B A)).orElse
        (fun _ => getCell (updCell g e0.id (linkUpdateF (linkParams A B t1 s1 u1 w1 es1)))
          (idDirectOf A B))).orElse
        (fun _ => getCell (updCell g e0.id (linkUpdateF (linkParams A B t1 s1 u1 w1 es1)))
          (idCanonicalOf B A)) = some (linkUpdateF (linkParams A B t1 s1 u1 w1 es1) e0) :=
      orElse3_some _ _ _ _ hcomp1 hcomp2 hcomp3 hhit
    have h2 := linkNodes_found (updCell g e0.id (linkUpdateF (linkParams A B t1 s1 u1 w1 es1)))
      (linkParams B A t2 s2 u2 w2 es2) (linkUpdateF (linkParams A B t1 s1 u1 w1 es1) e0) hex2
    rw [hF1id e0] at h2
    refine ⟨updCell g e0.id (linkUpdateF (linkParams A B t1 s1 u1 w1 es1)), e0.id,
      _, _, by exact h1, by exact h2, rfl, ?_⟩
    have hsingle : edgesBetween g A B = [e0] :=
      filter_eq_singleton_of_unique g _ e0 he0mem he0edge
        (fun c hc hpc => hone c hc e0 he0mem hpc he0edge) hwf
    refine ⟨linkUpdateF (linkParams B A t2 s2 u2 w2 es2)
      (linkUpdateF (linkParams A B t1 s1 u1 w1 es1) e0), ?_, ?_, ?_, ?_⟩
    · show edgesBetween (updCell (updCell g e0.id
        (linkUpdateF (linkParams A B t1 s1 u1 w1 es1))) e0.id
        (linkUpdateF (linkParams B A t2 s2 u2 w2 es2))) A B = _
      rw [updCell, edgesBetween_map _ _ A B
        (fun c => isEdgeBetweenB_updFun (linkParams B A t2 s2 u2 w2 es2) _ c A B)]
      rw [updCell, edgesBetween_map _ _ A B
        (fun c => isEdgeBetweenB_updFun (linkParams A B t1 s1 u1 w1 es1) _ c A B)]
      rw [hsingle, List.map_cons, List.map_nil, if_pos (beq_self_eq_true _),
        List.map_cons, List.map_nil, if_pos (by rw [hF1id e0]; exact beq_self_eq_true _)]
    · rw [linkUpdateF_id, hF1id e0]
    · intro s hs
      rw [linkUpdateF_value]
      subst hs
      rfl
    · intro s hs2 hs1 hne
      rw [linkUpdateF_value, linkUpdateF_value]
      subst hs2
      subst hs1
      rfl

/-- The fresh two-node diagram of the C1 counterexample. -/
def cexG : Model := [sampleVertex "a", sampleVertex "b"]

/-- First call: link a→b supplying the empty-string title. -/
def cexStep1 : Except String (Model × String) :=
  linkNodes cexG (linkParams "a" "b" (some "") [] false [] none)

/-- The diagram after the first call. -/
def cexG1 : Model :=
  match cexStep1 with
  | .ok (g, _) => g
  | .error _ => []

/-- Second call: link b→a supplying no title. -/
def cexStep2 : Except String (Model × String) :=
  linkNodes cexG1 (linkParams "b" "a" none [] false [] none)

/-- The diagram after the second call. -/
def cexG2 : Model :=
  match cexStep2 with
  | .ok (g, _) => g
  | .error _ => []

/-- An edge cell with the given identifier and terminals, as the
counterexample diagrams hold before the link calls. -/
def mkEdge (i s t : String) : Cell :=
  { id := i, value := none, style := none, vertex := false, edge := true,
    source := some s, target := some t, x := 0, y := 0, width := 0, height := 0,
    points := [], parent := none }

/-- A diagram in which a VERTEX occupies the candidate identifier `a-2-b`. -/
def cexVG : Model := [sampleVertex "a", sampleVertex "b", sampleVertex "a-2-b"]

/-- First call on `cexVG`: link a→b. -/
def cexVStep1 : Except String (Model × String) :=
  linkNodes cexVG (linkParams "a" "b" (some "x") [] false [] none)

/-- The diagram after the first call on `cexVG`. -/
def cexVG1 : Model :=
  match cexVStep1 with
  | .ok (g, _) => g
  | .error _ => []

/-- Second call on `cexVG1`: link b→a. -/
def cexVStep2 : Except String (Model × String) :=
  linkNodes cexVG1 (linkParams "b" "a" (some "y") [] false [] none)

/-- The diagram after both calls on `cexVG`. -/
def cexVG2 : Model :=
  match cexVStep2 with
  | .ok (g, _) => g
  | .error _ => []

/-- A diagram holding two parallel a-b edges, one under each of the direct
and reverse candidate identifiers. -/
def cexPG : Model :=
  [sampleVertex "a", sampleVertex "b", mkEdge "a-2-b" "a" "b", mkEdge "b-2-a" "b" "a"]

/-- First call on `cexPG`: link a→b. -/
def cexPStep1 : Except String (Model × String) :=
  linkNodes cexPG (linkParams "a" "b" (some "x") [] false [] none)

/-- The diagram after the first call on `cexPG`. -/
def cexPG1 : Model :=
  match cexPStep1 with
  | .ok (g, _) => g
  | .error _ => []

/-- Second call on `cexPG1`: link b→a. -/
def cexPStep2 : Except String (Model × String) :=
  linkNodes cexPG1 (linkParams "b" "a" (some "y") [] false [] none)

/-- The diagram after both calls on `cexPG`. -/
def cexPG2 : Model :=
  match cexPStep2 with
  | .ok (g, _) => g
  | .error _ => []

/-- A diagram holding an a-b edge under the unrelated identifier `e1`. -/
def cexEG : Model := [sampleVertex "a", sampleVertex "b", mkEdge "e1" "a" "b"]

/-- First call on `cexEG`: link a→b. -/
def cexEStep1 : Except String (Model × String) :=
  linkNodes cexEG (linkParams "a" "b" (some "x") [] false [] none)

/-- The diagram after the first call on `cexEG`. -/
def cexEG1 : Model :=
  match cexEStep1 with
  | .ok (g, _) => g
  | .error _ => []

/-- Second call on `cexEG1`: link b→a. -/
def cexEStep2 : Except String (Model × String) :=
  linkNodes cexEG1 (linkParams "b" "a" (some "y") [] false [] none)

/-- The diagram after both calls on `cexEG`. -/
def cexEG2 : Model :=
  match cexEStep2 with
  | .ok (g, _) => g
  | .error _ => []

/-- Claim C1 counterexample, four concrete diagrams on which the claim as
stated fails, each forcing one clause of the amendment.
(1) On a fresh pair, linking with title `""` and then linking back with no
title leaves the edge with NO label (`title ? title : null` stores null for
the empty string at creation), not the last supplied title `""`.
(2) When a vertex occupies the candidate identifier `a-2-b`, both calls
mutate that vertex and no edge at all exists between a and b afterwards.
(3) When parallel edges sit under the direct and reverse identifiers, the
two calls mutate different edges and return different identifiers, and two
edges remain.
(4) When an a-b edge sits under the unrelated identifier `e1`, the first
call creates a second edge, and two edges remain. -/
theorem c1_counterexample :
    (cexStep1 = .ok (cexG1, "a-2-b") ∧
     cexStep2 = .ok (cexG2, "a-2-b") ∧
     (edgesBetween cexG2 "a" "b").map Cell.value = [none] ∧
     (none : Option String) ≠ some "") ∧
    (cexVStep1 = .ok (cexVG1, "a-2-b") ∧
     cexVStep2 = .ok (cexVG2, "a-2-b") ∧
     edgesBetween cexVG2 "a" "b" = []) ∧
    (cexPStep1 = .ok (cexPG1, "a-2-b") ∧
     cexPStep2 = .ok (cexPG2, "b-2-a") ∧
     ("b-2-a" : String) ≠ "a-2-b" ∧
     (edgesBetween cexPG2 "a" "b").length = 2) ∧
    (cexEStep1 = .ok (cexEG1, "a-2-b") ∧
     cexEStep2 = .ok (cexEG2, "a-2-b") ∧
     (edgesBetween cexEG2 "a" "b").length = 2) := by
  refine ⟨⟨by rfl, by rfl, by decide, by decide⟩,
    ⟨by rfl, by rfl, by decide⟩,
    ⟨by rfl, by rfl, by decide, by decide⟩,
    ⟨by rfl, by rfl, by decide⟩⟩

theorem c1_link_idempotent_witness :
    ∃ g1 id1 g2 id2,
      linkNodes [sampleVertex "svc", sampleVertex "db"]
        (linkParams "svc" "db" (some "queries") [] false [] none) = .ok (g1, id1) ∧
      linkNodes g1 (linkParams "db" "svc" (some "reads") [] false [] none) = .ok (g2, id2) ∧
      id2 = id1 ∧
      ∃ e, edgesBetween g2 "svc" "db" = [e] ∧ e.id = id1 ∧
        (∀ s, (some "reads" : Option String) = some s → e.value = some s) ∧
        (∀ s, (some "reads" : Option String) = none → (some "queries" : Option String) = some s →
          s ≠ "" → e.value = some s) :=
  c1_link_idempotent [sampleVertex "svc", sampleVertex "db"] "svc" "db"
    (some "queries") (some "reads") [] [] false false [] [] none none
    (by decide) (by decide) (by decide) (by decide) (by decide) (by decide)
